import Mathlib

/-!
Verification development for the invoice-scraper repository.

Shallow embedding of the artifact-acquisition race
(`src/scanners/water_scanner_test.py: download_invoice_by_period`,
`try_direct_download`, `try_blob_download`), the session-state store
(`src/utils.py: Utils.record_state`, `Utils._append_session_storage_to_state`,
and the loading side in `conftest.py`), the freshness guard
(`Utils.wait_for_authenticated_selector`), the tolerant waiters
(`Utils.wait_for_selector`, `Utils.wait_for_locator`,
`Utils.click_selector_if_exists`), the blob-polling loop
(`Utils.blob_download_with_timeout`) and the canvas part of the
fingerprint shim (`FINGERPRINT_SHIM`).
-/

namespace InvoiceScraper

/-- Outcome a strategy task would deliver on completion: a byte payload
(`try_direct_download` / `try_blob_download` both return `bytes`, never
`None`), or a raised exception carrying a reason string. -/
inductive TaskOutcome where
  | ok (payload : List Nat)
  | err (reason : String)
deriving DecidableEq, Repr

/-- One strategy task in an acquisition run: the wall-clock time at which the
task completes, and the outcome it completes with. -/
structure StrategyRun where
  time : Nat
  outcome : TaskOutcome
deriving DecidableEq, Repr

/-- Errors that can escape `download_invoice_by_period`.
`strategy` is an exception re-raised by `task.result()` (e.g. the blob
strategy's `TimeoutError` or the direct strategy's playwright timeout);
`valueError` is the `ValueError` raised by the `pdf_content is None` guard.
`acquisitionFailed` is modelled from the spec: the spec's
`AcquisitionFailed(strategyReasons)` aggregate; the source defines no such
type and never constructs one — the constructor exists only so claims that
mention it can be stated. -/
inductive RaceError where
  | strategy (reason : String)
  | valueError (msg : String)
  | acquisitionFailed (reasons : List String)
deriving DecidableEq, Repr

/-- Completion time of the earliest-completing task in the list
(the moment `asyncio.wait(..., return_when=FIRST_COMPLETED)` returns). -/
def firstCompletionTime : List StrategyRun → Nat
  | [] => 0
  | t :: ts => ts.foldl (fun m u => min m u.time) t.time

/-- `asyncio.wait(tasks, return_when=FIRST_COMPLETED)`: returns the pair
`(done, pending)` at the moment the earliest task completes — `done` holds
every task that has completed by then (completion means success OR raised
exception; `asyncio.wait` does not distinguish), `pending` the rest. -/
def asyncWaitFirstCompleted (tasks : List StrategyRun) :
    List StrategyRun × List StrategyRun :=
  let m := firstCompletionTime tasks
  (tasks.filter (fun t => t.time = m), tasks.filter (fun t => ¬ t.time = m))

/-- The `for task in done: pdf_content = task.result()` loop:
`task.result()` re-raises the task's exception, aborting the loop with that
error; otherwise the loop overwrites the accumulator with the payload. -/
def collectResults : List StrategyRun → Option (List Nat) →
    Except RaceError (Option (List Nat))
  | [], acc => .ok acc
  | t :: ts, acc =>
    match t.outcome with
    | .err r => .error (.strategy r)
    | .ok p => collectResults ts (some p)

/-- `download_invoice_by_period` (water_scanner_test.py): races the direct
download task against the blob download task with
`asyncio.wait(FIRST_COMPLETED)`, cancels the pending task, reads results from
the done set (re-raising any exception), and raises `ValueError` if the
accumulator is still `None`. -/
def download_invoice_by_period (direct blob : StrategyRun) :
    Except RaceError (List Nat) :=
  let done := (asyncWaitFirstCompleted [direct, blob]).1
  match collectResults done none with
  | .error e => .error e
  | .ok none => .error (.valueError "Failed to download invoice for period")
  | .ok (some p) => .ok p

/-- A cookie record in the persisted storage state (the fields beyond these
three play no role in any claim and are elided). -/
structure Cookie where
  name : String
  value : String
  domain : String
deriving DecidableEq, Repr

/-- One entry of the `origins` array of the persisted JSON state file:
an origin string, its durable `localStorage` pairs, and — only when the
sessionStorage-append step has written it — a `sessionStorage` key
(`none` models the key being absent from the JSON object). -/
structure OriginEntry where
  origin : String
  localStorage : List (String × String)
  sessionStorage : Option (List (String × String))
deriving DecidableEq, Repr

/-- The persisted per-platform state file (`playwright/.auth/{platform}.json`
written as JSON): top-level `cookies` and `origins`. -/
structure AuthState where
  cookies : List Cookie
  origins : List OriginEntry
deriving DecidableEq, Repr

/-- The live browsing context's storage as playwright sees it: the cookie jar
and, per origin, the durable `localStorage` pairs. `sessionStorage` is not
part of a context's storage state. -/
structure ContextState where
  cookies : List Cookie
  origins : List (String × List (String × String))
deriving DecidableEq, Repr

/-- The page's view used by the sessionStorage capture: its origin (scheme +
host computed from `page.url`) and the sessionStorage pairs its JS evaluation
returns. -/
structure PageState where
  origin : String
  sessionStorage : List (String × String)
deriving DecidableEq, Repr

/-- `page.context.storage_state(path=...)`: serializes the context's cookies
and per-origin localStorage to the file, overwriting it wholesale; the
written JSON contains no `sessionStorage` keys. -/
def storage_state (ctx : ContextState) : AuthState :=
  ⟨ctx.cookies, ctx.origins.map (fun o => ⟨o.1, o.2, none⟩)⟩

/-- The `for origin_data in state["origins"]` loop of
`Utils._append_session_storage_to_state`: sets the `sessionStorage` key of
the first entry whose origin matches and stops (`break`); later entries are
untouched. -/
def updateFirstOrigin (origin : String) (items : List (String × String)) :
    List OriginEntry → List OriginEntry
  | [] => []
  | e :: es =>
    if e.origin = origin then { e with sessionStorage := some items } :: es
    else e :: updateFirstOrigin origin items es

/-- Whether some entry of the origins array has the given origin string. -/
def originPresent (origin : String) (es : List OriginEntry) : Bool :=
  es.any (fun e => e.origin = origin)

/-- `Utils._append_session_storage_to_state`: if the page has no
sessionStorage, warn and leave the file untouched; otherwise re-read the
state file, set the matching origin entry's `sessionStorage` (first match
only), or append a new entry (with no `localStorage` key) when no entry
matches, and write the file back. -/
def append_session_storage_to_state (pageOrigin : String)
    (sessionStorage : List (String × String)) (state : AuthState) : AuthState :=
  if sessionStorage.isEmpty then state
  else if originPresent pageOrigin state.origins then
    { state with origins := updateFirstOrigin pageOrigin sessionStorage state.origins }
  else
    { state with origins := state.origins ++ [⟨pageOrigin, [], some sessionStorage⟩] }

/-- `Utils.record_state`: writes the context's storage state to the
platform's file — overwriting whatever the file held before (`fileBefore` is
ignored) — then, when `include_session_storage` is set, appends the page's
sessionStorage for the page's origin to the freshly written file. -/
def record_state (ctx : ContextState) (page : PageState)
    (include_session_storage : Bool) (fileBefore : Option AuthState) :
    AuthState :=
  let st := storage_state ctx
  let _ := fileBefore
  if include_session_storage then
    append_session_storage_to_state page.origin page.sessionStorage st
  else st

/-- The loading side (`conftest.py` `page` fixture with a `using_state`
marker): the new context is created from the file's cookies and per-origin
localStorage, and the fixture separately extracts the sessionStorage of the
FIRST origin entry carrying a `sessionStorage` key (`break` after the first)
for injection into the page. -/
def load_state (file : AuthState) :
    ContextState × Option (String × List (String × String)) :=
  (⟨file.cookies, file.origins.map (fun e => (e.origin, e.localStorage))⟩,
   (file.origins.find? (fun e => e.sessionStorage.isSome)).map
     (fun e => (e.origin, e.sessionStorage.getD [])))

/-- Discrete-time model of `page.wait_for_selector(selector, timeout)`:
`present t` says whether the selector is attached/visible `t` time units
after the call; playwright resolves at the earliest such `t` within the
timeout and raises `PlaywrightTimeoutError` if there is none. -/
def firstAppearance (present : Nat → Bool) (timeout : Nat) : Option Nat :=
  (List.range (timeout + 1)).find? present

/-- Result of a freshness-guard call: normal return, or a raised
`CookieExpiredError(platform)` (the spec's `SessionExpired`). -/
inductive GuardOutcome where
  | ok
  | cookieExpired (platform : String)
deriving DecidableEq, Repr

/-- `Utils.wait_for_authenticated_selector`: waits for the selector to
appear; on appearance raises `CookieExpiredError` when `should_exist` is
false; on `PlaywrightTimeoutError` returns normally when `should_exist` is
false and raises `CookieExpiredError` when it is true. -/
def wait_for_authenticated_selector (present : Nat → Bool)
    (should_exist : Bool) (platform : String) (timeout : Nat) : GuardOutcome :=
  match firstAppearance present timeout with
  | some _ => if should_exist then .ok else .cookieExpired platform
  | none => if should_exist then .cookieExpired platform else .ok

/-- A playwright locator as the tolerant waiters see it: the selector it was
built from and the number of elements it matches. -/
structure LocatorModel where
  selector : String
  count : Nat
deriving DecidableEq, Repr

/-- The two terminal outcomes of a playwright wait call: the condition was
met in time, or `PlaywrightTimeoutError` was raised. -/
inductive WaitOutcome where
  | appeared
  | timedOut
deriving DecidableEq, Repr

/-- `Utils.wait_for_selector`: catches `PlaywrightTimeoutError` and returns
`None`; on success returns the locator only when it matches at least one
element, `None` otherwise. -/
def wait_for_selector (wait : WaitOutcome) (loc : LocatorModel) :
    Option LocatorModel :=
  match wait with
  | .appeared => if loc.count > 0 then some loc else none
  | .timedOut => none

/-- `Utils.wait_for_locator`: same contract as `wait_for_selector`, waiting
on an existing locator. -/
def wait_for_locator (wait : WaitOutcome) (loc : LocatorModel) :
    Option LocatorModel :=
  match wait with
  | .appeared => if loc.count > 0 then some loc else none
  | .timedOut => none

/-- `Utils.click_selector_if_exists`: clicks only when `wait_for_selector`
returned a locator; reports whether a click happened. -/
def click_selector_if_exists (wait : WaitOutcome) (loc : LocatorModel) :
    Bool :=
  match wait_for_selector wait loc with
  | some _ => true
  | none => false

/-- The `InvoicePeriod` enum of water_scanner_test.py. -/
inductive InvoicePeriod where
  | period_1
  | period_2
  | period_3
  | period_4
  | period_5
  | period_6
deriving DecidableEq, Repr

/-- The period label, `f"{period}-{YEAR}"` with `YEAR = 2025`. -/
def InvoicePeriod.value : InvoicePeriod → String
  | .period_1 => "1-2025"
  | .period_2 => "2-2025"
  | .period_3 => "3-2025"
  | .period_4 => "4-2025"
  | .period_5 => "5-2025"
  | .period_6 => "6-2025"

/-- `PERIODS_TO_DOWNLOAD` from water_scanner_test.py. -/
def PERIODS_TO_DOWNLOAD : List InvoicePeriod :=
  [.period_4, .period_5, .period_6]

/-- The `for period in PERIODS_TO_DOWNLOAD` loop of `test_meitav`: each
iteration awaits `download_invoice_by_period` with no try/except, so a
raised error aborts the loop. Returns the periods for which an acquisition
was attempted and the error that escaped the loop, if any. -/
def run_periods (download : InvoicePeriod → Except RaceError (List Nat)) :
    List InvoicePeriod → List InvoicePeriod × Option RaceError
  | [] => ([], none)
  | p :: rest =>
    match download p with
    | .error e => ([p], some e)
    | .ok _ =>
      let r := run_periods download rest
      (p :: r.1, r.2)

/-- The loop guard `new_page.url.startswith("blob:")`: whether the URL's
first five characters are `blob:` (expressed over the character list,
which is equivalent to the python prefix test). -/
def hasBlobScheme (s : String) : Bool :=
  s.data.take 5 == "blob:".data

/-- The polling loop of `Utils.blob_download_with_timeout`, with time made
explicit: `url i` is the page URL observed at the i-th check (the URL can
change because each iteration reloads the page), `delta i` the milliseconds
that the i-th reload-plus-one-second-sleep takes, `elapsed` the milliseconds
since `start_wait`. Per iteration the code checks the URL; if it is
blob-scheme it exits the loop, else it raises `TimeoutError` when more than
`timeout` ms have elapsed, else it reloads, sleeps and retries. `fuel`
bounds the recursion; `none` means the fuel ran out. -/
def blobPollAux (url : Nat → String) (delta : Nat → Nat) (timeout : Nat)
    (fuel i elapsed : Nat) : Option (Except String (String × Nat)) :=
  match fuel with
  | 0 => none
  | fuel + 1 =>
    if hasBlobScheme (url i) then some (.ok (url i, i))
    else if timeout < elapsed then
      some (.error "Timeout waiting for blob URL to load")
    else blobPollAux url delta timeout fuel (i + 1) (elapsed + delta i)

/-- Fuel that suffices for the polling loop: each iteration advances the
clock by at least the one-second sleep, so the loop runs at most
`timeout / 1000 + 2` times before exiting or raising. -/
def pollFuel (timeout : Nat) : Nat := timeout / 1000 + 2

/-- `Utils.blob_download_with_timeout`: polls until the URL is blob-scheme,
then fetches and decodes the blob via `download_pdf_from_blob_url`
(abstracted as `fetch`). The result pairs the decoded bytes with the number
of reloads performed before the blob URL was observed. -/
def blob_download_with_timeout (url : Nat → String) (delta : Nat → Nat)
    (fetch : String → List Nat) (timeout : Nat) :
    Option (Except String (List Nat × Nat)) :=
  (blobPollAux url delta timeout (pollFuel timeout) 0 0).map
    (fun r => r.map (fun p => (fetch p.1, p.2)))

/-- Milliseconds elapsed over iterations `i, i+1, ..., i+k-1`. -/
def sumDelta (delta : Nat → Nat) : Nat → Nat → Nat
  | _, 0 => 0
  | i, k + 1 => delta i + sumDelta delta (i + 1) k

/-- The linear congruential generator of the canvas shim:
`s = (s * 1664525 + 1013904223) >>> 0`. -/
def lcgNext (s : Nat) : Nat := (s * 1664525 + 1013904223) % 2 ^ 32

/-- A canvas as the shim's export patch sees it: its integer width, height
and the red-channel byte at each pixel (the only channel the shim
modifies). -/
structure CanvasModel where
  w : Nat
  h : Nat
  pix : Nat → Nat → Nat

/-- The shim's generator state. -/
structure ShimState where
  s : Nat
deriving DecidableEq, Repr

/-- Installing the shim into a fresh context: `let s = seed >>> 0` with the
fixed `seed = 1337` — whatever generator state a previous installation left
behind is reset. -/
def installShim (old : ShimState) : ShimState :=
  let _ := old
  ⟨1337⟩

/-- One recorded perturbation: the chosen pixel and the clamped new
red-channel value. -/
structure Perturbation where
  x : Nat
  y : Nat
  newVal : Nat
deriving DecidableEq, Repr

/-- One intercepted canvas export (`toDataURL` / `toBlob` patch body): when
the canvas has positive dimensions, draw two pseudo-random numbers, pick
`x = (rand() * min(8, w)) | 0`, `y = (rand() * min(8, h)) | 0`, and clamp
`data[0] = (data[0] + 1) & 255` at that pixel before the original export
runs; otherwise consume no randomness and export untouched. Returns the new
generator state, the exported canvas contents, and the perturbation made. -/
def perturbCanvas (st : ShimState) (c : CanvasModel) :
    ShimState × CanvasModel × Option Perturbation :=
  if 0 < c.w ∧ 0 < c.h then
    let s1 := lcgNext st.s
    let x := s1 * min 8 c.w / 2 ^ 32
    let s2 := lcgNext s1
    let y := s2 * min 8 c.h / 2 ^ 32
    let nv := (c.pix x y + 1) % 256
    (⟨s2⟩,
     ⟨c.w, c.h, fun a b => if a = x ∧ b = y then nv else c.pix a b⟩,
     some ⟨x, y, nv⟩)
  else (st, c, none)

/-- A run of the shim: the sequence of canvas export calls against one
context, threading the generator state; yields each call's exported
contents and the perturbation applied to it. -/
def runShim (st : ShimState) :
    List CanvasModel → List (CanvasModel × Option Perturbation)
  | [] => []
  | c :: cs =>
    let r := perturbCanvas st c
    (r.2.1, r.2.2) :: runShim r.1 cs

/-- Helper: the done set of a two-task race is never empty. -/
theorem asyncWait_two_done_ne_nil (direct blob : StrategyRun) :
    (asyncWaitFirstCompleted [direct, blob]).1 ≠ [] := by
  unfold asyncWaitFirstCompleted firstCompletionTime
  simp only [List.foldl]
  rcases Nat.le_total direct.time blob.time with h | h
  · have hm : min direct.time blob.time = direct.time := Nat.min_eq_left h
    simp [List.filter, hm]
  · have hm : min direct.time blob.time = blob.time := Nat.min_eq_right h
    by_cases hd : direct.time = blob.time <;> simp [List.filter, hm, hd]

/-- Helper: the result loop never completes with the accumulator still `None`
when the done list is non-empty or the accumulator already holds a payload. -/
theorem collectResults_ne_ok_none (ts : List StrategyRun)
    (acc : Option (List Nat)) (h : ts ≠ [] ∨ acc.isSome) :
    collectResults ts acc ≠ .ok none := by
  induction ts generalizing acc with
  | nil =>
    rcases h with h | h
    · exact absurd rfl h
    · cases acc with
      | none => simp at h
      | some p => simp [collectResults]
  | cons t ts ih =>
    cases hout : t.outcome with
    | err r => simp [collectResults, hout]
    | ok p =>
      simp only [collectResults, hout]
      exact ih (some p) (Or.inr rfl)

/-- Helper: every error the result loop produces is a re-raised strategy
exception, never anything else. -/
theorem collectResults_error_is_strategy (ts : List StrategyRun)
    (acc : Option (List Nat)) (e : RaceError)
    (h : collectResults ts acc = .error e) : ∃ r, e = .strategy r := by
  induction ts generalizing acc with
  | nil => simp [collectResults] at h
  | cons t ts ih =>
    cases hout : t.outcome with
    | err r =>
      simp [collectResults, hout] at h
      exact ⟨r, h.symm⟩
    | ok p =>
      simp only [collectResults, hout] at h
      exact ih (some p) h

/-- C8: whenever `asyncio.wait` returns, the done set is non-empty, and
iterating it either re-raises a strategy exception or stores a (non-`None`)
byte payload; hence the `pdf_content is None` guard is unreachable and
`download_invoice_by_period` never raises the
`ValueError("Failed to download invoice for period ...")` it declares. -/
theorem c8_value_error_unreachable (direct blob : StrategyRun) (msg : String) :
    (asyncWaitFirstCompleted [direct, blob]).1 ≠ [] ∧
    download_invoice_by_period direct blob ≠ .error (.valueError msg) := by
  refine ⟨asyncWait_two_done_ne_nil direct blob, ?_⟩
  unfold download_invoice_by_period
  dsimp only
  cases hc : collectResults (asyncWaitFirstCompleted [direct, blob]).1 none with
  | error e =>
    obtain ⟨r, hr⟩ := collectResults_error_is_strategy _ _ _ hc
    subst hr
    simp
  | ok acc =>
    cases acc with
    | none =>
      exact absurd hc
        (collectResults_ne_ok_none _ _
          (Or.inl (asyncWait_two_done_ne_nil direct blob)))
    | some p =>
      simp

/-- C8 witness: concrete evaluation of the theorem at a concrete run. -/
theorem c8_value_error_unreachable_witness :
    (asyncWaitFirstCompleted
        [⟨1000, .ok [37]⟩, ⟨2000, .err "blob timed out"⟩]).1 ≠ [] ∧
    download_invoice_by_period ⟨1000, .ok [37]⟩ ⟨2000, .err "blob timed out"⟩
      ≠ .error (.valueError "Failed to download invoice for period") :=
  c8_value_error_unreachable ⟨1000, .ok [37]⟩ ⟨2000, .err "blob timed out"⟩
    "Failed to download invoice for period"

/-- C1: evaluation of the code at the failing input. The blob strategy fails
(raises `TimeoutError`) at t=1000ms while the direct strategy would succeed
with payload `[37]` at t=2000ms; `asyncio.wait(FIRST_COMPLETED)` returns on
the blob task's completion, the direct task is cancelled, and `task.result()`
re-raises the blob timeout — the code propagates the early failure instead of
returning the later success, contradicting the claim (and the code's own
comment "Wait for the first one to succeed"). -/
theorem c1_first_failure_determines_result :
    download_invoice_by_period ⟨2000, .ok [37]⟩
        ⟨1000, .err "Timeout waiting for blob URL to load"⟩
      = .error (.strategy "Timeout waiting for blob URL to load") ∧
    download_invoice_by_period ⟨2000, .ok [37]⟩
        ⟨1000, .err "Timeout waiting for blob URL to load"⟩
      ≠ .ok [37] := by
  have h : download_invoice_by_period ⟨2000, .ok [37]⟩
      ⟨1000, .err "Timeout waiting for blob URL to load"⟩
    = .error (.strategy "Timeout waiting for blob URL to load") := rfl
  refine ⟨h, ?_⟩
  rw [h]
  intro hc
  simp at hc

/-- C2 counterexample: both strategies fail within their timeouts (blob at
t=1000ms, direct at t=2000ms). The call fails with the bare re-raised
exception of the first strategy to fail — a single strategy's bare error —
not with any `AcquisitionFailed` aggregate carrying both reasons. -/
theorem c2_counterexample_single_bare_error :
    download_invoice_by_period ⟨2000, .err "direct timed out"⟩
        ⟨1000, .err "blob timed out"⟩
      = .error (.strategy "blob timed out") ∧
    download_invoice_by_period ⟨2000, .err "direct timed out"⟩
        ⟨1000, .err "blob timed out"⟩
      ≠ .error (.acquisitionFailed ["blob timed out", "direct timed out"]) ∧
    download_invoice_by_period ⟨2000, .err "direct timed out"⟩
        ⟨1000, .err "blob timed out"⟩
      ≠ .error (.acquisitionFailed ["direct timed out", "blob timed out"]) := by
  have h : download_invoice_by_period ⟨2000, .err "direct timed out"⟩
      ⟨1000, .err "blob timed out"⟩
    = .error (.strategy "blob timed out") := rfl
  refine ⟨h, ?_, ?_⟩ <;> (rw [h]; intro hc; simp at hc)

/-- C2 amended: when every strategy terminates in failure before any
succeeds, `download_invoice_by_period` raises the bare exception of the
strategy that completes (fails) first — the direct strategy's error on a tie —
and the other strategy's failure reason is not reported; no aggregate
`AcquisitionFailed` is raised. -/
theorem c2_amended_first_failure_raised (direct blob : StrategyRun)
    (rd rb : String) (hd : direct.outcome = .err rd)
    (hb : blob.outcome = .err rb) :
    download_invoice_by_period direct blob =
      .error (.strategy (if direct.time ≤ blob.time then rd else rb)) := by
  unfold download_invoice_by_period asyncWaitFirstCompleted firstCompletionTime
  simp only [List.foldl]
  by_cases h : direct.time ≤ blob.time
  · have hm : min direct.time blob.time = direct.time := Nat.min_eq_left h
    simp [List.filter, hm, collectResults, hd, h]
  · have hlt : blob.time < direct.time := Nat.lt_of_not_le h
    have hm : min direct.time blob.time = blob.time := Nat.min_eq_right hlt.le
    have hne : ¬ direct.time = blob.time := Nat.ne_of_gt hlt
    simp [List.filter, hm, hne, collectResults, hb, h]

/-- C2 amended witness: concrete all-fail run. -/
theorem c2_amended_first_failure_raised_witness :
    download_invoice_by_period ⟨2000, .err "direct timed out"⟩
        ⟨1000, .err "blob timed out"⟩
      = .error (.strategy
          (if (2000 : Nat) ≤ 1000 then "direct timed out" else "blob timed out")) :=
  c2_amended_first_failure_raised ⟨2000, .err "direct timed out"⟩
    ⟨1000, .err "blob timed out"⟩ "direct timed out" "blob timed out" rfl rfl

/-- Helper: updating the first matching origin entry's sessionStorage leaves
every entry's origin and localStorage fields unchanged. -/
theorem updateFirstOrigin_map_fst (origin : String)
    (items : List (String × String)) (es : List OriginEntry) :
    (updateFirstOrigin origin items es).map (fun e => (e.origin, e.localStorage))
      = es.map (fun e => (e.origin, e.localStorage)) := by
  induction es with
  | nil => rfl
  | cons e es ih =>
    by_cases h : e.origin = origin <;>
      simp [updateFirstOrigin, h, ih]

/-- Helper: decomposition of the first-match update. If the origin is
present, the origins list splits as `pre ++ e :: post` with `e` the first
matching entry, and the update rewrites exactly `e`'s sessionStorage field,
leaving `pre` and `post` as they were. -/
theorem updateFirstOrigin_decomp (origin : String)
    (items : List (String × String)) (es : List OriginEntry)
    (h : originPresent origin es = true) :
    ∃ pre e post, es = pre ++ e :: post ∧ e.origin = origin ∧
      (∀ x ∈ pre, x.origin ≠ origin) ∧
      updateFirstOrigin origin items es =
        pre ++ { e with sessionStorage := some items } :: post := by
  induction es with
  | nil => simp [originPresent] at h
  | cons e es ih =>
    by_cases he : e.origin = origin
    · exact ⟨[], e, es, by simp, he, by simp, by simp [updateFirstOrigin, he]⟩
    · have hes : originPresent origin es = true := by
        simp [originPresent] at h ⊢
        rcases h with h | h
        · exact absurd h he
        · exact h
      obtain ⟨pre, x, post, hsplit, hx, hpre, hupd⟩ := ih hes
      refine ⟨e :: pre, x, post, by simp [hsplit], hx, ?_, ?_⟩
      · intro y hy
        rcases List.mem_cons.mp hy with hy | hy
        · exact hy ▸ he
        · exact hpre y hy
      · simp [updateFirstOrigin, he, hupd]

/-- C5: appending captured sessionStorage for an origin already present in
the on-disk record replaces only that origin's `sessionStorage` field — the
first matching entry keeps its origin and durable localStorage, every other
entry is unchanged, and the record's cookies (as written by the preceding
whole-state capture) are unchanged by the merge step. -/
theorem c5_merge_replaces_only_session_storage (state : AuthState)
    (origin : String) (items : List (String × String)) (hne : items ≠ [])
    (hpres : originPresent origin state.origins = true) :
    (append_session_storage_to_state origin items state).cookies
        = state.cookies ∧
    ∃ pre e post, state.origins = pre ++ e :: post ∧ e.origin = origin ∧
      (∀ x ∈ pre, x.origin ≠ origin) ∧
      (append_session_storage_to_state origin items state).origins =
        pre ++ ⟨e.origin, e.localStorage, some items⟩ :: post := by
  have hemp : items.isEmpty = false := by
    cases items with
    | nil => exact absurd rfl hne
    | cons a l => rfl
  obtain ⟨pre, e, post, hsplit, he, hpre, hupd⟩ :=
    updateFirstOrigin_decomp origin items state.origins hpres
  refine ⟨by simp [append_session_storage_to_state, hemp, hpres], ?_⟩
  exact ⟨pre, e, post, hsplit, he, hpre, by
    simp [append_session_storage_to_state, hemp, hpres, hupd]⟩

/-- C5 witness: concrete two-origin record; the merge for the second origin
keeps its durable storage, the first origin's entry and the cookies. -/
theorem c5_merge_replaces_only_session_storage_witness :
    (append_session_storage_to_state "https://b.test" [("kb", "vb")]
        ⟨[⟨"sid", "1", "b.test"⟩],
         [⟨"https://a.test", [("la", "1")], none⟩,
          ⟨"https://b.test", [("lb", "2")], none⟩]⟩).cookies
        = [⟨"sid", "1", "b.test"⟩] ∧
    ∃ pre e post,
      ([⟨"https://a.test", [("la", "1")], none⟩,
        ⟨"https://b.test", [("lb", "2")], none⟩] : List OriginEntry)
        = pre ++ e :: post ∧
      e.origin = "https://b.test" ∧
      (∀ x ∈ pre, x.origin ≠ "https://b.test") ∧
      (append_session_storage_to_state "https://b.test" [("kb", "vb")]
          ⟨[⟨"sid", "1", "b.test"⟩],
           [⟨"https://a.test", [("la", "1")], none⟩,
            ⟨"https://b.test", [("lb", "2")], none⟩]⟩).origins =
        pre ++ ⟨e.origin, e.localStorage, some [("kb", "vb")]⟩ :: post :=
  c5_merge_replaces_only_session_storage
    ⟨[⟨"sid", "1", "b.test"⟩],
     [⟨"https://a.test", [("la", "1")], none⟩,
      ⟨"https://b.test", [("lb", "2")], none⟩]⟩
    "https://b.test" [("kb", "vb")] (by simp) (by decide)

/-- Helper: every origin entry freshly written by `storage_state` carries no
`sessionStorage` key. -/
theorem storage_state_no_session (ctx : ContextState) (x : OriginEntry)
    (hx : x ∈ (storage_state ctx).origins) : x.sessionStorage = none := by
  simp [storage_state] at hx
  obtain ⟨a, b, _, hx⟩ := hx
  rw [← hx]

/-- Helper: the first entry carrying a `sessionStorage` key is found when all
entries before it carry none. -/
theorem find?_first_session (pre post : List OriginEntry) (e : OriginEntry)
    (hpre : ∀ x ∈ pre, x.sessionStorage = none)
    (he : e.sessionStorage.isSome = true) :
    (pre ++ e :: post).find? (fun x => x.sessionStorage.isSome) = some e := by
  induction pre with
  | nil => simp [List.find?, he]
  | cons x pre ih =>
    have hx : x.sessionStorage = none := hpre x (List.mem_cons_self x pre)
    have hrest : ∀ y ∈ pre, y.sessionStorage = none := fun y hy =>
      hpre y (List.mem_cons_of_mem x hy)
    simp [List.find?, hx, ih hrest]

/-- C3 amended: for a single capture, load-after-capture reconstructs the
captured context exactly (cookies and per-origin durable storage), and the
sessionStorage captured for the page's origin is what the loader injects —
provided the page's origin is among the origins the context serializes. The
cross-capture half of the original claim fails (see the counterexample):
each capture rewrites the whole file from the context, so sessionStorage
merged by an earlier capture for a different origin is not preserved. -/
theorem c3_amended_capture_load_roundtrip (ctx : ContextState)
    (page : PageState) (prev : Option AuthState)
    (hss : page.sessionStorage ≠ [])
    (hpres : originPresent page.origin (storage_state ctx).origins = true) :
    load_state (record_state ctx page true prev)
      = (ctx, some (page.origin, page.sessionStorage)) := by
  have hemp : page.sessionStorage.isEmpty = false := by
    cases h : page.sessionStorage with
    | nil => exact absurd h hss
    | cons a l => rfl
  obtain ⟨pre, e, post, hsplit, he, hpreo, hupd⟩ :=
    updateFirstOrigin_decomp page.origin page.sessionStorage
      (storage_state ctx).origins hpres
  have hrec : record_state ctx page true prev =
      { storage_state ctx with
        origins := updateFirstOrigin page.origin page.sessionStorage
          (storage_state ctx).origins } := by
    simp [record_state, append_session_storage_to_state, hemp, hpres]
  rw [hrec]
  unfold load_state
  refine Prod.ext ?_ ?_
  · show ContextState.mk _ _ = ctx
    rw [updateFirstOrigin_map_fst]
    cases ctx with
    | mk cs os =>
      simp only [storage_state]
      have hid : ((fun (e : OriginEntry) => (e.origin, e.localStorage)) ∘
          fun (o : String × List (String × String)) =>
            OriginEntry.mk o.1 o.2 none) = fun o => o :=
        funext (fun o => rfl)
      rw [List.map_map, hid]
      simp
  · show (List.find? _ _).map _ = some (page.origin, page.sessionStorage)
    rw [hupd]
    rw [find?_first_session pre post ⟨e.origin, e.localStorage,
        some page.sessionStorage⟩ ?_ rfl]
    · simp [he]
    · intro x hx
      exact storage_state_no_session ctx x
        (hsplit ▸ List.mem_append_left _ hx)

/-- C3 amended witness: concrete context, page and previous file content. -/
theorem c3_amended_capture_load_roundtrip_witness :
    load_state (record_state
        ⟨[⟨"sid", "1", "a.test"⟩], [("https://a.test", [("la", "1")])]⟩
        ⟨"https://a.test", [("ka", "va")]⟩ true none)
      = (⟨[⟨"sid", "1", "a.test"⟩], [("https://a.test", [("la", "1")])]⟩,
         some ("https://a.test", [("ka", "va")])) :=
  c3_amended_capture_load_roundtrip
    ⟨[⟨"sid", "1", "a.test"⟩], [("https://a.test", [("la", "1")])]⟩
    ⟨"https://a.test", [("ka", "va")]⟩ none (by simp) (by decide)

/-- C3 counterexample: capture with sessionStorage on origin A, then capture
with sessionStorage on origin B against the same context. After the first
capture the file's entry for A carries A's sessionStorage; after the second
capture — whose `storage_state` call rewrote the whole file without any
`sessionStorage` keys before B was appended — the entry for A carries none:
the first origin's sessionStorage is overwritten away, not merged. -/
theorem c3_counterexample_second_capture_drops_first_origin :
    ((record_state
        ⟨[], [("https://a.test", [("la", "1")]),
              ("https://b.test", [("lb", "2")])]⟩
        ⟨"https://a.test", [("ka", "va")]⟩ true none).origins.find?
          (fun e => e.origin = "https://a.test")).map
        (fun e => e.sessionStorage)
      = some (some [("ka", "va")]) ∧
    ((record_state
        ⟨[], [("https://a.test", [("la", "1")]),
              ("https://b.test", [("lb", "2")])]⟩
        ⟨"https://b.test", [("kb", "vb")]⟩ true
        (some (record_state
          ⟨[], [("https://a.test", [("la", "1")]),
                ("https://b.test", [("lb", "2")])]⟩
          ⟨"https://a.test", [("ka", "va")]⟩ true none))).origins.find?
          (fun e => e.origin = "https://a.test")).map
        (fun e => e.sessionStorage)
      = some none := by
  constructor <;> decide

/-- Helper: the wait finds an appearance exactly when the selector is
present at some instant within the timeout. -/
theorem firstAppearance_isSome_iff (present : Nat → Bool) (timeout : Nat) :
    (firstAppearance present timeout).isSome = true ↔
      ∃ t, t ≤ timeout ∧ present t = true := by
  unfold firstAppearance
  rw [List.find?_isSome]
  constructor
  · rintro ⟨x, hx, hp⟩
    exact ⟨x, Nat.lt_succ_iff.mp (List.mem_range.mp hx), hp⟩
  · rintro ⟨t, ht, hp⟩
    exact ⟨t, List.mem_range.mpr (Nat.lt_succ_iff.mpr ht), hp⟩

/-- C4 counterexample: `should_exist = false`, timeout 5, and a selector
that is present at instant 0 and disappears from instant 1 on — it
disappears well within the timeout, so the claim demands success — but the
code's `wait_for_selector` resolves on the initial presence and the guard
raises `CookieExpiredError` immediately. -/
theorem c4_counterexample_disappearing_selector :
    wait_for_authenticated_selector (fun t => t = 0) false "meitav" 5
      = .cookieExpired "meitav" ∧
    (decide ((0 : Nat) = 0)) = true ∧
    (∀ t, t < 6 → 1 ≤ t → (decide (t = 0)) = false) := by
  refine ⟨by decide, by decide, by decide⟩

/-- C4 amended: the guard succeeds exactly when the selector's appearance
status within the timeout matches the `should_exist` polarity, and raises
`CookieExpiredError(platform)` otherwise. With `should_exist = true` this is
the claim as written (appearance in time is success, timeout is
`SessionExpired`); with `should_exist = false` the code succeeds when the
selector never appears within the timeout (the wait times out) and fails as
soon as the selector is present — it does not wait for an existing selector
to disappear. -/
theorem c4_amended_guard_polarity (present : Nat → Bool)
    (should_exist : Bool) (platform : String) (timeout : Nat) :
    (wait_for_authenticated_selector present should_exist platform timeout
        = .ok ↔
      ((∃ t, t ≤ timeout ∧ present t = true) ↔ should_exist = true)) ∧
    (wait_for_authenticated_selector present should_exist platform timeout
        = .cookieExpired platform ↔
      ¬ ((∃ t, t ≤ timeout ∧ present t = true) ↔ should_exist = true)) := by
  have hiff := firstAppearance_isSome_iff present timeout
  unfold wait_for_authenticated_selector
  cases hfa : firstAppearance present timeout with
  | some t =>
    have hex : ∃ t, t ≤ timeout ∧ present t = true := by
      rw [← hiff, hfa]
      rfl
    cases should_exist <;> simp [hex]
  | none =>
    have hex : ¬ ∃ t, t ≤ timeout ∧ present t = true := by
      rw [← hiff, hfa]
      simp
    cases should_exist <;> simp [hex]

/-- C10: the tolerant waiters are total at the public interface — a timeout
is absorbed into `None` rather than propagated, a zero match count also
yields `None`, and a locator is returned exactly when the wait succeeded and
at least one element matches; consequently `click_selector_if_exists` clicks
exactly in that case and silently skips absent elements. -/
theorem c10_waiters_total (wait : WaitOutcome) (loc : LocatorModel) :
    wait_for_selector wait loc =
      (if wait = .appeared ∧ 0 < loc.count then some loc else none) ∧
    wait_for_locator wait loc =
      (if wait = .appeared ∧ 0 < loc.count then some loc else none) ∧
    click_selector_if_exists wait loc =
      decide (wait = .appeared ∧ 0 < loc.count) := by
  cases wait <;> by_cases h : 0 < loc.count <;>
    simp [wait_for_selector, wait_for_locator, click_selector_if_exists, h]

/-- C6 counterexample: three requested periods where only the second one's
acquisition fails. The loop attempts periods 4 and 5, the failure escapes,
and period 6 is never attempted — the failure aborts the sibling periods. -/
theorem c6_counterexample_failure_aborts_siblings :
    run_periods
        (fun p => if p = .period_5
          then .error (.strategy "acquisition failed") else .ok [1])
        PERIODS_TO_DOWNLOAD
      = ([.period_4, .period_5], some (.strategy "acquisition failed")) ∧
    InvoicePeriod.period_6 ∉
      (run_periods
        (fun p => if p = .period_5
          then .error (.strategy "acquisition failed") else .ok [1])
        PERIODS_TO_DOWNLOAD).1 := by
  constructor <;> decide

/-- C6 amended: a failure of the acquisition for one period propagates out
of the per-period loop of `test_meitav` and aborts the acquisition of every
remaining sibling period in the run: if the periods before `p` all succeed
and `p` fails, exactly the periods up to and including `p` are attempted and
`p`'s error escapes. -/
theorem c6_amended_failure_aborts_rest
    (download : InvoicePeriod → Except RaceError (List Nat))
    (pre post : List InvoicePeriod) (p : InvoicePeriod) (e : RaceError)
    (hp : download p = .error e)
    (hpre : ∀ q ∈ pre, ∃ v, download q = .ok v) :
    run_periods download (pre ++ p :: post) = (pre ++ [p], some e) := by
  induction pre with
  | nil => simp [run_periods, hp]
  | cons q pre ih =>
    obtain ⟨v, hv⟩ := hpre q (List.mem_cons_self q pre)
    have hrest : ∀ x ∈ pre, ∃ v, download x = .ok v := fun x hx =>
      hpre x (List.mem_cons_of_mem q hx)
    simp [run_periods, hv, ih hrest]

/-- C6 amended witness: the concrete three-period run of the
counterexample, via the amended theorem. -/
theorem c6_amended_failure_aborts_rest_witness :
    run_periods
        (fun p => if p = .period_5
          then .error (.strategy "acquisition failed") else .ok [1])
        ([.period_4] ++ .period_5 :: [.period_6])
      = ([.period_4] ++ [.period_5], some (.strategy "acquisition failed")) :=
  c6_amended_failure_aborts_rest
    (fun p => if p = .period_5
      then .error (.strategy "acquisition failed") else .ok [1])
    [.period_4] [.period_6] .period_5 (.strategy "acquisition failed")
    rfl
    (by intro q hq; refine ⟨[1], ?_⟩; simp at hq; subst hq; rfl)

/-- Helper: with at least one second per iteration, `k` iterations take at
least `1000 * k` milliseconds. -/
theorem sumDelta_ge (delta : Nat → Nat) (hdelta : ∀ j, 1000 ≤ delta j) :
    ∀ k i, 1000 * k ≤ sumDelta delta i k := by
  intro k
  induction k with
  | zero => intro i; simp [sumDelta]
  | succ k ih =>
    intro i
    have h1 := hdelta i
    have h2 := ih (i + 1)
    simp only [sumDelta]
    omega

/-- Helper: the loop makes no iteration once the fuel is spent. -/
theorem blobPollAux_zero (url : Nat → String) (delta : Nat → Nat)
    (timeout i elapsed : Nat) :
    blobPollAux url delta timeout 0 i elapsed = none := rfl

/-- Helper: one unfolding of the polling loop. -/
theorem blobPollAux_succ (url : Nat → String) (delta : Nat → Nat)
    (timeout fuel i elapsed : Nat) :
    blobPollAux url delta timeout (fuel + 1) i elapsed =
      if hasBlobScheme (url i) then some (.ok (url i, i))
      else if timeout < elapsed then
        some (.error "Timeout waiting for blob URL to load")
      else blobPollAux url delta timeout fuel (i + 1) (elapsed + delta i) :=
  rfl

/-- Helper (termination): the loop never exhausts its fuel when the fuel
covers the timeout budget at one second per iteration. -/
theorem blobPollAux_total (url : Nat → String) (delta : Nat → Nat)
    (timeout : Nat) (hdelta : ∀ j, 1000 ≤ delta j) :
    ∀ fuel i elapsed, timeout < elapsed + 1000 * fuel →
      blobPollAux url delta timeout (fuel + 1) i elapsed ≠ none := by
  intro fuel
  induction fuel with
  | zero =>
    intro i elapsed hbound
    rw [blobPollAux_succ]
    by_cases hb : hasBlobScheme (url i) <;>
      simp [hb, blobPollAux_zero]
    omega
  | succ fuel ih =>
    intro i elapsed hbound
    rw [blobPollAux_succ]
    by_cases hb : hasBlobScheme (url i) <;> simp [hb]
    by_cases ht : timeout < elapsed <;> simp [ht]
    have h1 := hdelta i
    exact ih (i + 1) (elapsed + delta i) (by omega)

/-- Helper (success): if the URL first becomes blob-scheme at the k-th
check, all earlier checks passed the timeout test, and the fuel covers k,
the loop exits with that URL after exactly k reloads. -/
theorem blobPollAux_success (url : Nat → String) (delta : Nat → Nat)
    (timeout : Nat) :
    ∀ k fuel i elapsed, k ≤ fuel →
      (∀ j, j < k → hasBlobScheme (url (i + j)) = false) →
      (∀ j, j < k → elapsed + sumDelta delta i j ≤ timeout) →
      hasBlobScheme (url (i + k)) = true →
      blobPollAux url delta timeout (fuel + 1) i elapsed
        = some (.ok (url (i + k), i + k)) := by
  intro k
  induction k with
  | zero =>
    intro fuel i elapsed _ _ _ hblob
    simp only [Nat.add_zero] at hblob
    rw [blobPollAux_succ]
    simp [hblob]
  | succ k ih =>
    intro fuel i elapsed hfuel hnot hle hblob
    cases fuel with
    | zero => omega
    | succ fuel =>
      have hnb : hasBlobScheme (url i) = false := by
        have := hnot 0 (Nat.succ_pos k)
        simpa using this
      have helt : ¬ timeout < elapsed := by
        have := hle 0 (Nat.succ_pos k)
        simp [sumDelta] at this
        omega
      rw [blobPollAux_succ]
      simp only [hnb, Bool.false_eq_true, if_false, helt]
      have hf : k ≤ fuel := by omega
      have hn : ∀ j, j < k → hasBlobScheme (url (i + 1 + j)) = false := by
        intro j hj
        have h2 := hnot (j + 1) (by omega)
        have he : i + (j + 1) = i + 1 + j := by omega
        rwa [he] at h2
      have hl : ∀ j, j < k →
          (elapsed + delta i) + sumDelta delta (i + 1) j ≤ timeout := by
        intro j hj
        have h2 := hle (j + 1) (by omega)
        simp only [sumDelta] at h2
        omega
      have hb2 : hasBlobScheme (url (i + 1 + k)) = true := by
        have he : i + (k + 1) = i + 1 + k := by omega
        rwa [he] at hblob
      have hres := ih fuel (i + 1) (elapsed + delta i) hf hn hl hb2
      rw [hres]
      have he : i + 1 + k = i + (k + 1) := by omega
      rw [he]

/-- Helper: when the URL never becomes blob-scheme, any result the loop
produces is the `TimeoutError`. -/
theorem blobPollAux_never_blob (url : Nat → String) (delta : Nat → Nat)
    (timeout : Nat) (hnb : ∀ j, hasBlobScheme (url j) = false) :
    ∀ fuel i elapsed r, blobPollAux url delta timeout fuel i elapsed = some r →
      r = .error "Timeout waiting for blob URL to load" := by
  intro fuel
  induction fuel with
  | zero => intro i elapsed r h; rw [blobPollAux_zero] at h; exact absurd h (by simp)
  | succ fuel ih =>
    intro i elapsed r h
    rw [blobPollAux_succ] at h
    rw [hnb i] at h
    simp only [Bool.false_eq_true, if_false] at h
    by_cases ht : timeout < elapsed
    · simp [ht] at h
      exact h.symm
    · simp [ht] at h
      exact ih (i + 1) (elapsed + delta i) r h

/-- C9: with each loop iteration advancing the clock by at least the
one-second sleep, the polling loop of `blob_download_with_timeout`
terminates (the fuel `pollFuel` is never exhausted); it returns the decoded
bytes as soon as the page URL is blob-scheme — with zero reloads when the
URL is already blob-scheme on entry, and after exactly k reloads when the
URL first becomes blob-scheme at the k-th check within the timeout budget —
and it raises `TimeoutError` once more than `timeout` milliseconds have
elapsed without the URL becoming blob-scheme. -/
theorem c9_blob_poll_terminates (url : Nat → String) (delta : Nat → Nat)
    (fetch : String → List Nat) (timeout : Nat)
    (hdelta : ∀ j, 1000 ≤ delta j) :
    blob_download_with_timeout url delta fetch timeout ≠ none ∧
    (hasBlobScheme (url 0) = true →
      blob_download_with_timeout url delta fetch timeout
        = some (.ok (fetch (url 0), 0))) ∧
    (∀ k, (∀ j, j < k → hasBlobScheme (url j) = false) →
      (∀ j, j < k → sumDelta delta 0 j ≤ timeout) →
      hasBlobScheme (url k) = true →
      blob_download_with_timeout url delta fetch timeout
        = some (.ok (fetch (url k), k))) ∧
    ((∀ j, hasBlobScheme (url j) = false) →
      blob_download_with_timeout url delta fetch timeout
        = some (.error "Timeout waiting for blob URL to load")) := by
  have hmod := Nat.div_add_mod timeout 1000
  have hmlt : timeout % 1000 < 1000 := Nat.mod_lt timeout (by omega)
  have htot : blobPollAux url delta timeout (pollFuel timeout) 0 0 ≠ none := by
    have := blobPollAux_total url delta timeout hdelta (timeout / 1000 + 1) 0 0
      (by omega)
    simpa [pollFuel] using this
  have hsucc : ∀ k, (∀ j, j < k → hasBlobScheme (url j) = false) →
      (∀ j, j < k → sumDelta delta 0 j ≤ timeout) →
      hasBlobScheme (url k) = true →
      blob_download_with_timeout url delta fetch timeout
        = some (.ok (fetch (url k), k)) := by
    intro k hnot hle hblob
    have hk : k ≤ timeout / 1000 + 1 := by
      cases k with
      | zero => omega
      | succ j =>
        have h1 := hle j (Nat.lt_succ_self j)
        have h2 := sumDelta_ge delta hdelta j 0
        have h3 : 1000 * j ≤ timeout := by omega
        have h4 : j ≤ timeout / 1000 :=
          (Nat.le_div_iff_mul_le (by omega)).mpr (by omega)
        omega
    have haux := blobPollAux_success url delta timeout k (timeout / 1000 + 1)
      0 0 hk (fun j hj => by simpa using hnot j hj)
      (fun j hj => by simpa using hle j hj)
      (by simpa using hblob)
    unfold blob_download_with_timeout
    have hpf : pollFuel timeout = (timeout / 1000 + 1) + 1 := by
      simp [pollFuel]
    rw [hpf, haux]
    simp [Except.map]
  refine ⟨?_, ?_, hsucc, ?_⟩
  · unfold blob_download_with_timeout
    intro h
    rw [Option.map_eq_none'] at h
    exact htot h
  · intro hblob
    have := hsucc 0 (by omega) (by omega) (by simpa using hblob)
    simpa using this
  · intro hnb
    cases haux : blobPollAux url delta timeout (pollFuel timeout) 0 0 with
    | none => exact absurd haux htot
    | some r =>
      have hr := blobPollAux_never_blob url delta timeout hnb
        (pollFuel timeout) 0 0 r haux
      unfold blob_download_with_timeout
      rw [haux, hr]
      rfl

/-- C9 witness: a page whose URL never becomes blob-scheme, one-second
iterations, a 3-second timeout — the loop terminates with `TimeoutError`. -/
theorem c9_blob_poll_terminates_witness :
    blob_download_with_timeout (fun _ => "about:blank") (fun _ => 1000)
        (fun _ => []) 3000 ≠ none ∧
    blob_download_with_timeout (fun _ => "about:blank") (fun _ => 1000)
        (fun _ => []) 3000
      = some (.error "Timeout waiting for blob URL to load") := by
  have h := c9_blob_poll_terminates (fun _ => "about:blank") (fun _ => 1000)
    (fun _ => []) 3000 (fun j => Nat.le_refl 1000)
  exact ⟨h.1, h.2.2.2 (fun j => rfl)⟩

/-- Helper: the generator state always stays below 2^32. -/
theorem lcgNext_lt (s : Nat) : lcgNext s < 2 ^ 32 :=
  Nat.mod_lt _ (by norm_num)

/-- Helper: the chosen coordinate lands inside the bounded corner region. -/
theorem coord_lt (s m : Nat) (hs : s < 2 ^ 32) (hm : 0 < m) :
    s * m / 2 ^ 32 < m := by
  rw [Nat.div_lt_iff_lt_mul (by norm_num : 0 < 2 ^ 32)]
  calc s * m < 2 ^ 32 * m := (Nat.mul_lt_mul_right hm).mpr hs
  _ = m * 2 ^ 32 := Nat.mul_comm _ _

/-- Helper: every perturbation a run makes stays in the 8x8 corner region
with a byte-clamped channel value. -/
theorem runShim_bounds (cs : List CanvasModel) : ∀ st,
    ∀ pr ∈ runShim st cs, ∀ p, pr.2 = some p →
      p.x < 8 ∧ p.y < 8 ∧ p.newVal < 256 := by
  induction cs with
  | nil => intro st pr hpr; simp [runShim] at hpr
  | cons c cs ih =>
    intro st pr hpr p hp
    simp only [runShim, List.mem_cons] at hpr
    rcases hpr with hpr | hpr
    · by_cases hpos : 0 < c.w ∧ 0 < c.h
      · have hx : (perturbCanvas st c).2.2 =
            some ⟨lcgNext st.s * min 8 c.w / 2 ^ 32,
                  lcgNext (lcgNext st.s) * min 8 c.h / 2 ^ 32,
                  (c.pix (lcgNext st.s * min 8 c.w / 2 ^ 32)
                    (lcgNext (lcgNext st.s) * min 8 c.h / 2 ^ 32) + 1) % 256⟩ := by
          simp [perturbCanvas, hpos]
        rw [hpr] at hp
        simp only [hx, Option.some.injEq] at hp
        subst hp
        refine ⟨?_, ?_, Nat.mod_lt _ (by norm_num)⟩
        · exact Nat.lt_of_lt_of_le
            (coord_lt _ _ (lcgNext_lt st.s) (by omega))
            (Nat.min_le_left 8 c.w)
        · exact Nat.lt_of_lt_of_le
            (coord_lt _ _ (lcgNext_lt (lcgNext st.s)) (by omega))
            (Nat.min_le_left 8 c.h)
      · rw [hpr] at hp
        simp [perturbCanvas, hpos] at hp
    · exact ih (perturbCanvas st c).1 pr hpr p hp

/-- C7: the canvas interception is reproducible — re-installing the shim
resets the generator to the fixed seed, so two runs against fresh contexts
(whatever state each context's previous generator held) given the same
sequence of canvas export calls with the same contents choose the same pixel
coordinates, make the same clamped channel change, and export equal outputs;
moreover every perturbation stays inside the bounded 8x8 corner region with
a byte-clamped value. -/
theorem c7_same_seed_same_perturbation (s1 s2 : ShimState)
    (cs : List CanvasModel) :
    runShim (installShim s1) cs = runShim (installShim s2) cs ∧
    (∀ pr ∈ runShim (installShim s1) cs, ∀ p, pr.2 = some p →
      p.x < 8 ∧ p.y < 8 ∧ p.newVal < 256) :=
  ⟨rfl, runShim_bounds cs (installShim s1)⟩

/-- C7 witness: two fresh contexts with different stale generator states and
one concrete 2x2 canvas export call. -/
theorem c7_same_seed_same_perturbation_witness :
    runShim (installShim ⟨0⟩) [⟨2, 2, fun _ _ => 0⟩]
      = runShim (installShim ⟨999⟩) [⟨2, 2, fun _ _ => 0⟩] ∧
    (∀ pr ∈ runShim (installShim ⟨0⟩) [⟨2, 2, fun _ _ => 0⟩],
      ∀ p, pr.2 = some p → p.x < 8 ∧ p.y < 8 ∧ p.newVal < 256) :=
  c7_same_seed_same_perturbation ⟨0⟩ ⟨999⟩ [⟨2, 2, fun _ _ => 0⟩]

end InvoiceScraper
